import Mathlib

/-!
Verification development for the quiz funnel navigation core in
`src/components/quiz/QuizController.tsx`.

The React component state is embedded as a record `QuizState`; each intent
handler (`handleNext`, `handlePrevious`, `handleInterstitialContinue`,
`handleInterstitialBack`, `handleAnswer`) and the completion `useEffect`
(`completionCheck`) is embedded as a pure state transformer.  The timed
`setTimeout` callbacks inside the handlers are applied atomically in these
transformers, which models exactly the executions in which no further intent
arrives while a transition is in flight.  A second, two-phase model
(`handleNextSync` / `applyPending` / `fireAll`) keeps the scheduled callbacks
explicit in a pending list, so that the in-flight window between the
synchronous part of a handler and its timeout callback is observable.

The helpers `getNextQuestionId`, `getQuestionText` and `getOptionText` live in
`src/utils/quizUtils.ts`, which is not part of the sources at hand; they are
modelled from the specification and carry doc comments saying so.
-/

/-- Selectable option of a question: a stored value and a display label. -/
structure QuizOption where
  value : String
  label : String
deriving DecidableEq

/-- Question definition from the catalog: stable id, prompt text, options. -/
structure Question where
  id : String
  text : String
  options : List QuizOption
deriving DecidableEq

/-- Recorded answer: the question id and the selected option value. -/
structure QuizAnswer where
  questionId : String
  value : String
deriving DecidableEq

/-- Quiz configuration: the ordered question catalog and an optional webhook
URL (`QuizConfig` in `src/types/quiz`; only the fields the controller reads
are embedded). -/
structure QuizConfig where
  questions : List Question
  webhookUrl : Option String
deriving DecidableEq

/-- The `QuizStage` union type of `QuizController.tsx` line 14. -/
inductive QuizStage
  | intro
  | questions
  | interstitialA
  | interstitialB
  | interstitialC
  | interstitial
  | redirecting
deriving DecidableEq

/-- Interstitial kind tag, the values of `currentInterstitial`. -/
inductive InterKind
  | a
  | b
  | c
deriving DecidableEq

/-- External side effects dispatched by the completion effect. -/
inductive ExtCall
  | webhook
  | postMessage
  | locationAssign
deriving DecidableEq

/-- Environment facts the completion redirect depends on: whether the page is
top-level (`window.parent === window`) and whether `postMessage` throws. -/
structure RedirectEnv where
  isTopLevel : Bool
  postMessageThrows : Bool
deriving DecidableEq

/-- JavaScript `Array.prototype.findIndex`, returning `none` for `-1`. -/
def findIndex (p : α → Bool) : List α → Option Nat
  | [] => none
  | x :: xs => if p x then some 0 else (findIndex p xs).map (· + 1)

/-- The component state of `QuizController` (lines 17-41).  `participant` is
collapsed to its `answers` field: `name` and `email` stay at their initial
constants and are never read by the logic under verification.  `effects` is a
log of the external calls dispatched so far, so at-most-once dispatch is a
statement about state. -/
structure QuizState where
  stage : QuizStage
  currentQuestionId : Option String
  questionHistory : List String
  isTransitioning : Bool
  isInterstitialTransitioning : Bool
  currentInterstitial : Option InterKind
  answers : List QuizAnswer
  hasSentCompletionData : Bool
  effects : List ExtCall
deriving DecidableEq

/-- Initial component state (`useState` initialisers, lines 17-41). -/
def initialState (config : QuizConfig) : QuizState :=
  { stage := QuizStage.questions
  , currentQuestionId :=
      match config.questions with
      | [] => none
      | q :: _ => some q.id
  , questionHistory :=
      match config.questions with
      | [] => []
      | q :: _ => [q.id]
  , isTransitioning := false
  , isInterstitialTransitioning := false
  , currentInterstitial := none
  , answers := []
  , hasSentCompletionData := false
  , effects := [] }

/-- Modelled from the spec: `getNextQuestionId` is imported from
`src/utils/quizUtils.ts`, which is not among the sources; the spec describes
the catalog as an ordered list supplying a pure
`nextId(currentId, answers, catalog)` resolution in simple linear order, null
at the end.  This resolves the id following `currentQuestionId` in catalog
order (`none` past the last entry or when the id is absent); the `answers`
argument is kept for signature fidelity and ignored by the linear order. -/
def nextAfter : List Question → String → Option String
  | [], _ => none
  | [_], _ => none
  | q :: r :: rest, cur => if q.id = cur then some r.id else nextAfter (r :: rest) cur

/-- Modelled from the spec: wrapper giving `getNextQuestionId` the call shape
used at `QuizController.tsx` line 146. -/
def getNextQuestionId (currentQuestionId : String) (_answers : List QuizAnswer)
    (questions : List Question) : Option String :=
  nextAfter questions currentQuestionId

/-- The hardcoded interstitial binding table (`shouldShowInterstitial`,
lines 121-138): (q1,q2) maps to A, (q3,q4) to B, (q5,q6) to C. -/
def shouldShowInterstitial (fromQuestionId toQuestionId : String) : Option InterKind :=
  if fromQuestionId = "q1" ∧ toQuestionId = "q2" then some InterKind.a
  else if fromQuestionId = "q3" ∧ toQuestionId = "q4" then some InterKind.b
  else if fromQuestionId = "q5" ∧ toQuestionId = "q6" then some InterKind.c
  else none

/-- Forward binding target per kind (`handleInterstitialContinue` lines
190-199): after A go to q2, after B to q4, after C to q6. -/
def interstitialContinueTarget : InterKind → String
  | InterKind.a => "q2"
  | InterKind.b => "q4"
  | InterKind.c => "q6"

/-- Reverse binding target per kind (`handleInterstitialBack` lines 220-229):
before A was q1, before B was q3, before C was q5. -/
def interstitialBackTarget : InterKind → String
  | InterKind.a => "q1"
  | InterKind.b => "q3"
  | InterKind.c => "q5"

/-- Stage value `interstitial-${type}` for a kind. -/
def stageOfKind : InterKind → QuizStage
  | InterKind.a => QuizStage.interstitialA
  | InterKind.b => QuizStage.interstitialB
  | InterKind.c => QuizStage.interstitialC

/-- The `handleAnswer` handler (lines 100-118): replace the existing answer
for the same question in place, else append. -/
def handleAnswer (s : QuizState) (answer : QuizAnswer) : QuizState :=
  match findIndex (fun a => a.questionId = answer.questionId) s.answers with
  | some existingIndex => { s with answers := s.answers.set existingIndex answer }
  | none => { s with answers := s.answers ++ [answer] }

/-- The `handleNext` handler (lines 140-179) with its timeout callback
applied: guard on a current question, resolve the next id, divert to an
interstitial when the binding table matches, otherwise advance and push
history; a null next id ends the questions (`currentQuestionId` := null). -/
def handleNext (config : QuizConfig) (s : QuizState) : QuizState :=
  match s.currentQuestionId with
  | none => s
  | some cur =>
    match getNextQuestionId cur s.answers config.questions with
    | some nextQuestionId =>
      match shouldShowInterstitial cur nextQuestionId with
      | some interstitialType =>
        { s with stage := stageOfKind interstitialType
               , currentInterstitial := some interstitialType
               , isTransitioning := false }
      | none =>
        { s with currentQuestionId := some nextQuestionId
               , questionHistory := s.questionHistory ++ [nextQuestionId]
               , isTransitioning := false }
    | none => { s with currentQuestionId := none }

/-- The `handleInterstitialContinue` handler (lines 182-210) with its timeout
applied: guarded on an active interstitial and on no interstitial transition
in flight; moves to the bound forward question and appends it to history. -/
def handleInterstitialContinue (s : QuizState) : QuizState :=
  match s.currentInterstitial with
  | none => s
  | some k =>
    if s.isInterstitialTransitioning then s
    else
      { s with stage := QuizStage.questions
             , currentQuestionId := some (interstitialContinueTarget k)
             , questionHistory := s.questionHistory ++ [interstitialContinueTarget k]
             , currentInterstitial := none
             , isInterstitialTransitioning := false }

/-- The `handleInterstitialBack` handler (lines 212-239) with its timeout
applied: guarded like continue; returns to the bound previous question and
leaves history untouched. -/
def handleInterstitialBack (s : QuizState) : QuizState :=
  match s.currentInterstitial with
  | none => s
  | some k =>
    if s.isInterstitialTransitioning then s
    else
      { s with stage := QuizStage.questions
             , currentQuestionId := some (interstitialBackTarget k)
             , currentInterstitial := none
             , isInterstitialTransitioning := false }

/-- The `handlePrevious` handler (lines 241-264) with its timeout applied:
no-op unless history has more than one entry; delegates to interstitial back
when an interstitial is active; otherwise pops history and returns to its new
last element. -/
def handlePrevious (s : QuizState) : QuizState :=
  if s.questionHistory.length ≤ 1 then s
  else
    match s.currentInterstitial with
    | some _ => handleInterstitialBack s
    | none =>
      { s with currentQuestionId := s.questionHistory.dropLast.getLast?
             , questionHistory := s.questionHistory.dropLast
             , isTransitioning := false }

/-- Modelled from the spec: `getQuestionText` from `src/utils/quizUtils.ts`
(not among the sources) returns the prompt text of the question with the
given id, derived via the Question Catalog.  The spec does not constrain ids
absent from the catalog; the id itself is returned then, and no claim under
verification depends on that case. -/
def getQuestionText (questionId : String) (config : QuizConfig) : String :=
  match config.questions.find? (fun q => q.id = questionId) with
  | some q => q.text
  | none => questionId

/-- Modelled from the spec: `getOptionText` from `src/utils/quizUtils.ts`
(not among the sources) returns the human-readable label of the option with
the given stored value on the given question, derived via the Question
Catalog; the raw value is returned when no such option is found. -/
def getOptionText (questionId : String) (value : String) (config : QuizConfig) : String :=
  match config.questions.find? (fun q => q.id = questionId) with
  | none => value
  | some q =>
    match q.options.find? (fun o => o.value = value) with
    | some o => o.label
    | none => value

/-- JavaScript object property assignment `m[k] = v` on a string-keyed record:
an existing key keeps its position and gets the new value, a new key is
appended in insertion order. -/
def recordSet (m : List (String × String)) (k v : String) : List (String × String) :=
  match findIndex (fun p => p.1 = k) m with
  | some i => m.set i (k, v)
  | none => m ++ [(k, v)]

/-- The `humanReadableMap` built by the completion effect (lines 51-56): for
each ledger entry, assign the option label under the question prompt text. -/
def humanReadableMap (config : QuizConfig) (answers : List QuizAnswer) :
    List (String × String) :=
  answers.foldl
    (fun m ans =>
      recordSet m (getQuestionText ans.questionId config)
        (getOptionText ans.questionId ans.value config))
    []

/-- Webhook dispatch of the completion effect (lines 66-73): sent only when a
webhook URL is configured and nonblank after trimming. -/
def webhookCalls (config : QuizConfig) : List ExtCall :=
  match config.webhookUrl with
  | some url => if url.trim = "" then [] else [ExtCall.webhook]
  | none => []

/-- Redirect portion of the completion effect (lines 79-96): the `try` block
posts the redirect message to `window.parent` and, when the page is top-level
(`window.parent === window`), also navigates directly; when `postMessage`
throws, the `catch` block navigates directly instead. -/
def redirectCalls (env : RedirectEnv) : List ExtCall :=
  if env.postMessageThrows then [ExtCall.locationAssign]
  else ExtCall.postMessage :: (if env.isTopLevel then [ExtCall.locationAssign] else [])

/-- All external calls dispatched by one firing of the completion effect. -/
def completionExternalCalls (config : QuizConfig) (env : RedirectEnv) : List ExtCall :=
  webhookCalls config ++ redirectCalls env

/-- Firing condition of the completion effect (line 44). -/
def completionShouldFire (s : QuizState) : Prop :=
  s.stage = QuizStage.questions ∧ s.currentQuestionId = none ∧
    s.answers ≠ [] ∧ s.hasSentCompletionData = false

instance (s : QuizState) : Decidable (completionShouldFire s) := by
  unfold completionShouldFire
  exact inferInstance

/-- First step of the completion effect body (lines 45-46): set the latch and
switch to the redirecting stage, before any external call. -/
def completionLatch (s : QuizState) : QuizState :=
  { s with hasSentCompletionData := true, stage := QuizStage.redirecting }

/-- Second step of the completion effect body (lines 50-96): dispatch the
external calls. -/
def completionDispatch (config : QuizConfig) (env : RedirectEnv) (s : QuizState) : QuizState :=
  { s with effects := s.effects ++ completionExternalCalls config env }

/-- One evaluation of the completion `useEffect` (lines 43-98): when the
firing condition holds, set the latch first and only then dispatch. -/
def completionCheck (config : QuizConfig) (env : RedirectEnv) (s : QuizState) : QuizState :=
  if completionShouldFire s then completionDispatch config env (completionLatch s) else s

/-- The `calculateProgress` derived view (lines 268-275);
`Math.round(((index + 1) / length) * 100)` on nonnegative rationals is
`(200 * (index + 1) + length) / (2 * length)` in integer division. -/
def calculateProgress (config : QuizConfig) (currentQuestionId : Option String) : Nat :=
  match currentQuestionId with
  | none => 0
  | some cur =>
    if config.questions.length = 0 then 0
    else
      match findIndex (fun q => q.id = cur) config.questions with
      | none => 0
      | some currentIndex =>
        (200 * (currentIndex + 1) + config.questions.length) / (2 * config.questions.length)

/-- The `getCurrentQuestionNumber` derived view (lines 277-281): 1 when no
question is current, else `findIndex` (`-1` when absent) plus one. -/
def getCurrentQuestionNumber (config : QuizConfig) (currentQuestionId : Option String) : Int :=
  match currentQuestionId with
  | none => 1
  | some cur =>
    (match findIndex (fun q => q.id = cur) config.questions with
     | none => (-1 : Int)
     | some currentIndex => (currentIndex : Int)) + 1

/-- Inbound intents of the controller plus the completion re-check. -/
inductive QuizOp
  | next
  | previous
  | interstitialContinue
  | answer (a : QuizAnswer)
  | check
deriving DecidableEq

/-- Apply one intent to the state. -/
def applyOp (config : QuizConfig) (env : RedirectEnv) (s : QuizState) : QuizOp → QuizState
  | QuizOp.next => handleNext config s
  | QuizOp.previous => handlePrevious s
  | QuizOp.interstitialContinue => handleInterstitialContinue s
  | QuizOp.answer a => handleAnswer s a
  | QuizOp.check => completionCheck config env s

/-- Run a sequence of intents from a state. -/
def runOps (config : QuizConfig) (env : RedirectEnv) (ops : List QuizOp) (s : QuizState) :
    QuizState :=
  ops.foldl (applyOp config env) s

/-- A scheduled `setTimeout` callback body, with the values its closure
captured at scheduling time. -/
inductive PendingUpdate
  | enterInterstitial (k : InterKind)
  | commitNext (nextQuestionId : String)
  | commitPrev (newHistory : List String) (previousQuestionId : Option String)
  | interstitialForward (target : String)
  | interstitialBackward (target : String)
deriving DecidableEq

/-- Two-phase view of the component: the committed state plus the queue of
scheduled timeout callbacks not yet fired. -/
structure AsyncQuizState where
  base : QuizState
  pending : List PendingUpdate
deriving DecidableEq

/-- Fire one scheduled callback against the committed state.  `commitNext`
appends to history through a functional update (line 171), while `commitPrev`
stores the history value computed when the handler ran (lines 255-261). -/
def applyPending (s : QuizState) : PendingUpdate → QuizState
  | PendingUpdate.enterInterstitial k =>
    { s with stage := stageOfKind k
           , currentInterstitial := some k
           , isTransitioning := false }
  | PendingUpdate.commitNext nextQuestionId =>
    { s with currentQuestionId := some nextQuestionId
           , questionHistory := s.questionHistory ++ [nextQuestionId]
           , isTransitioning := false }
  | PendingUpdate.commitPrev newHistory previousQuestionId =>
    { s with currentQuestionId := previousQuestionId
           , questionHistory := newHistory
           , isTransitioning := false }
  | PendingUpdate.interstitialForward target =>
    { s with stage := QuizStage.questions
           , currentQuestionId := some target
           , questionHistory := s.questionHistory ++ [target]
           , currentInterstitial := none
           , isInterstitialTransitioning := false }
  | PendingUpdate.interstitialBackward target =>
    { s with stage := QuizStage.questions
           , currentQuestionId := some target
           , currentInterstitial := none
           , isInterstitialTransitioning := false }

/-- Synchronous part of `handleNext` (lines 140-179): everything the handler
does before its `setTimeout` callback runs.  Note that it reads neither
`isTransitioning` nor `isInterstitialTransitioning`. -/
def handleNextSync (config : QuizConfig) (st : AsyncQuizState) : AsyncQuizState :=
  match st.base.currentQuestionId with
  | none => st
  | some cur =>
    match getNextQuestionId cur st.base.answers config.questions with
    | some nextQuestionId =>
      match shouldShowInterstitial cur nextQuestionId with
      | some interstitialType =>
        { base := { st.base with isTransitioning := true }
        , pending := st.pending ++ [PendingUpdate.enterInterstitial interstitialType] }
      | none =>
        { base := { st.base with isTransitioning := true }
        , pending := st.pending ++ [PendingUpdate.commitNext nextQuestionId] }
    | none =>
      { base := { st.base with currentQuestionId := none }, pending := st.pending }

/-- Synchronous part of `handleInterstitialContinue` (lines 182-210): dropped
outright while an interstitial transition is in flight. -/
def handleInterstitialContinueSync (st : AsyncQuizState) : AsyncQuizState :=
  match st.base.currentInterstitial with
  | none => st
  | some k =>
    if st.base.isInterstitialTransitioning then st
    else
      { base := { st.base with isInterstitialTransitioning := true }
      , pending := st.pending ++
          [PendingUpdate.interstitialForward (interstitialContinueTarget k)] }

/-- Synchronous part of `handleInterstitialBack` (lines 212-239): dropped
outright while an interstitial transition is in flight. -/
def handleInterstitialBackSync (st : AsyncQuizState) : AsyncQuizState :=
  match st.base.currentInterstitial with
  | none => st
  | some k =>
    if st.base.isInterstitialTransitioning then st
    else
      { base := { st.base with isInterstitialTransitioning := true }
      , pending := st.pending ++
          [PendingUpdate.interstitialBackward (interstitialBackTarget k)] }

/-- Synchronous part of `handlePrevious` (lines 241-264). -/
def handlePreviousSync (st : AsyncQuizState) : AsyncQuizState :=
  if st.base.questionHistory.length ≤ 1 then st
  else
    match st.base.currentInterstitial with
    | some _ => handleInterstitialBackSync st
    | none =>
      { base := { st.base with isTransitioning := true }
      , pending := st.pending ++
          [PendingUpdate.commitPrev st.base.questionHistory.dropLast
            st.base.questionHistory.dropLast.getLast?] }

/-- Fire every scheduled callback in order, oldest first. -/
def fireAll (st : AsyncQuizState) : QuizState :=
  st.pending.foldl applyPending st.base

/-- A hit of `findIndex` is in bounds and satisfies the predicate. -/
theorem findIndex_some {p : α → Bool} :
    ∀ {l : List α} {i : Nat}, findIndex p l = some i →
      ∃ h : i < l.length, p (l.get ⟨i, h⟩) = true := by
  intro l
  induction l with
  | nil => intro i h; simp [findIndex] at h
  | cons x xs ih =>
    intro i h
    rw [findIndex] at h
    by_cases hx : p x = true
    · rw [if_pos hx, Option.some.injEq] at h
      subst h
      exact ⟨Nat.succ_pos _, hx⟩
    · rw [if_neg hx] at h
      cases hfi : findIndex p xs with
      | none =>
        rw [hfi] at h
        simp at h
      | some j =>
        rw [hfi] at h
        simp only [Option.map_some'] at h
        obtain rfl : j + 1 = i := Option.some.inj h
        obtain ⟨hlt, hp⟩ := ih hfi
        exact ⟨Nat.succ_lt_succ hlt, hp⟩

/-- A list none of whose elements satisfies the predicate has no hit. -/
theorem findIndex_eq_none {p : α → Bool} :
    ∀ {l : List α}, (∀ x ∈ l, p x = false) → findIndex p l = none := by
  intro l
  induction l with
  | nil => intro _; rfl
  | cons x xs ih =>
    intro h
    rw [findIndex]
    rw [h x (List.mem_cons_self x xs)]
    simp only [Bool.false_eq_true, if_false]
    rw [ih fun y hy => h y (List.mem_cons_of_mem x hy)]
    rfl

/-- Setting an index keeps the other positions. -/
theorem set_get?_ne : ∀ (l : List α) (i j : Nat) (b : α), i ≠ j →
    (l.set i b).get? j = l.get? j := by
  intro l
  induction l with
  | nil => intro i j b _; simp
  | cons x xs ih =>
    intro i j b hij
    cases i with
    | zero =>
      cases j with
      | zero => exact absurd rfl hij
      | succ j' => simp [List.set]
    | succ i' =>
      cases j with
      | zero => simp [List.set]
      | succ j' =>
        simp only [List.set, List.get?]
        exact ih i' j' b (fun he => hij (by rw [he]))

/-- Replacing an element by one with the same image keeps the mapped list. -/
theorem map_set_eq {f : α → β} :
    ∀ (l : List α) (i : Nat) (b : α) (h : i < l.length), f b = f (l.get ⟨i, h⟩) →
      (l.set i b).map f = l.map f := by
  intro l
  induction l with
  | nil => intro i b h; simp at h
  | cons x xs ih =>
    intro i b h hfb
    cases i with
    | zero => simpa [List.set] using hfb
    | succ i' =>
      simp only [List.set, List.map, List.cons.injEq, true_and]
      exact ih i' b (Nat.lt_of_succ_lt_succ h) hfb

/-- In a catalog with pairwise-distinct ids the linear successor of an id is
never that id itself. -/
theorem nextAfter_ne :
    ∀ (l : List Question), (l.map Question.id).Nodup →
      ∀ cur n, nextAfter l cur = some n → n ≠ cur := by
  intro l
  induction l with
  | nil => intro _ cur n h; simp [nextAfter] at h
  | cons q rest ih =>
    cases rest with
    | nil => intro _ cur n h; simp [nextAfter] at h
    | cons r rest' =>
      intro hnd cur n h
      rw [nextAfter] at h
      simp only [List.map, List.nodup_cons, List.mem_cons] at hnd
      by_cases hq : q.id = cur
      · rw [if_pos hq, Option.some.injEq] at h
        subst h
        intro he
        exact hnd.1 (Or.inl (by rw [he, hq]))
      · rw [if_neg hq] at h
        exact ih (by simpa using hnd.2) cur n h

/-- Inversion of the binding table: a hit pins both endpoints. -/
theorem shouldShowInterstitial_inv {f t : String} {k : InterKind}
    (h : shouldShowInterstitial f t = some k) :
    f = interstitialBackTarget k ∧ t = interstitialContinueTarget k := by
  unfold shouldShowInterstitial at h
  by_cases h1 : f = "q1" ∧ t = "q2"
  · rw [if_pos h1, Option.some.injEq] at h
    subst h
    exact ⟨h1.1, h1.2⟩
  · rw [if_neg h1] at h
    by_cases h2 : f = "q3" ∧ t = "q4"
    · rw [if_pos h2, Option.some.injEq] at h
      subst h
      exact ⟨h2.1, h2.2⟩
    · rw [if_neg h2] at h
      by_cases h3 : f = "q5" ∧ t = "q6"
      · rw [if_pos h3, Option.some.injEq] at h
        subst h
        exact ⟨h3.1, h3.2⟩
      · rw [if_neg h3] at h
        exact absurd h (by simp)

/-- The binding table hits its own endpoints. -/
theorem shouldShowInterstitial_self (k : InterKind) :
    shouldShowInterstitial (interstitialBackTarget k) (interstitialContinueTarget k) = some k := by
  cases k <;> rfl

/-- Forward and reverse binding targets of a kind differ. -/
theorem interstitialTargets_ne (k : InterKind) :
    interstitialBackTarget k ≠ interstitialContinueTarget k := by
  cases k <;> decide

/-- Inductive state invariant behind claims C3, C4 and C5: adjacent history
entries differ, the last history entry tracks the current question, and an
active interstitial remembers a current question equal to its reverse target
whose linear successor is its forward target. -/
def QuizInv (config : QuizConfig) (s : QuizState) : Prop :=
  List.Chain' (fun x y => x ≠ y) s.questionHistory ∧
  (∀ q, s.currentQuestionId = some q → s.questionHistory.getLast? = some q) ∧
  (∀ k, s.currentInterstitial = some k →
    s.currentQuestionId = some (interstitialBackTarget k) ∧
    nextAfter config.questions (interstitialBackTarget k) =
      some (interstitialContinueTarget k))

/-- The initial state satisfies the invariant. -/
theorem quizInv_initialState (config : QuizConfig) : QuizInv config (initialState config) := by
  unfold QuizInv initialState
  cases hq : config.questions with
  | nil =>
    refine ⟨List.chain'_nil, ?_, ?_⟩
    · intro q hq'
      exact Option.noConfusion hq'
    · intro k hk
      exact Option.noConfusion hk
  | cons q0 rest =>
    refine ⟨List.chain'_singleton _, ?_, ?_⟩
    · intro q hq'
      obtain rfl := Option.some.inj hq'
      rfl
    · intro k hk
      exact Option.noConfusion hk

/-- Recording an answer does not touch the navigation fields. -/
theorem quizInv_handleAnswer (config : QuizConfig) (s : QuizState) (a : QuizAnswer)
    (h : QuizInv config s) : QuizInv config (handleAnswer s a) := by
  obtain ⟨h1, h2, h3⟩ := h
  unfold handleAnswer
  split
  · exact ⟨h1, h2, h3⟩
  · exact ⟨h1, h2, h3⟩

/-- The completion effect does not touch the navigation fields. -/
theorem quizInv_completionCheck (config : QuizConfig) (env : RedirectEnv) (s : QuizState)
    (h : QuizInv config s) : QuizInv config (completionCheck config env s) := by
  obtain ⟨h1, h2, h3⟩ := h
  unfold completionCheck completionDispatch completionLatch
  split
  · exact ⟨h1, h2, h3⟩
  · exact ⟨h1, h2, h3⟩


/-- Equation: `handleNext` with no current question is a no-op (line 141). -/
theorem handleNext_noCurrent (config : QuizConfig) (s : QuizState)
    (h : s.currentQuestionId = none) : handleNext config s = s := by
  unfold handleNext
  simp only [h]

/-- Equation: `handleNext` at the end of the questions only nulls the current
question (line 177). -/
theorem handleNext_end (config : QuizConfig) (s : QuizState) (cur : String)
    (hcur : s.currentQuestionId = some cur)
    (hn : getNextQuestionId cur s.answers config.questions = none) :
    handleNext config s = { s with currentQuestionId := none } := by
  unfold handleNext
  simp only [hcur, hn]

/-- Equation: `handleNext` on a bound transition enters the interstitial
(lines 156-164). -/
theorem handleNext_interstitial (config : QuizConfig) (s : QuizState)
    (cur nid : String) (k : InterKind)
    (hcur : s.currentQuestionId = some cur)
    (hn : getNextQuestionId cur s.answers config.questions = some nid)
    (hs : shouldShowInterstitial cur nid = some k) :
    handleNext config s =
      { s with stage := stageOfKind k
             , currentInterstitial := some k
             , isTransitioning := false } := by
  unfold handleNext
  simp only [hcur, hn, hs]

/-- Equation: `handleNext` on an unbound transition advances and pushes
history (lines 165-174). -/
theorem handleNext_advance (config : QuizConfig) (s : QuizState) (cur nid : String)
    (hcur : s.currentQuestionId = some cur)
    (hn : getNextQuestionId cur s.answers config.questions = some nid)
    (hs : shouldShowInterstitial cur nid = none) :
    handleNext config s =
      { s with currentQuestionId := some nid
             , questionHistory := s.questionHistory ++ [nid]
             , isTransitioning := false } := by
  unfold handleNext
  simp only [hcur, hn, hs]

/-- Equation: `handleInterstitialBack` without an active interstitial is a
no-op (line 213). -/
theorem handleInterstitialBack_noCurrent (s : QuizState)
    (h : s.currentInterstitial = none) : handleInterstitialBack s = s := by
  unfold handleInterstitialBack
  simp only [h]

/-- Equation: `handleInterstitialBack` during an interstitial transition is a
no-op (line 213). -/
theorem handleInterstitialBack_inFlight (s : QuizState) (k : InterKind)
    (hk : s.currentInterstitial = some k)
    (ht : s.isInterstitialTransitioning = true) : handleInterstitialBack s = s := by
  unfold handleInterstitialBack
  simp only [hk]
  rw [if_pos ht]

/-- Equation: `handleInterstitialBack` re-enters the bound previous question
(lines 215-238). -/
theorem handleInterstitialBack_go (s : QuizState) (k : InterKind)
    (hk : s.currentInterstitial = some k)
    (ht : s.isInterstitialTransitioning = false) :
    handleInterstitialBack s =
      { s with stage := QuizStage.questions
             , currentQuestionId := some (interstitialBackTarget k)
             , currentInterstitial := none
             , isInterstitialTransitioning := false } := by
  unfold handleInterstitialBack
  simp only [hk]
  rw [if_neg (show ¬s.isInterstitialTransitioning = true by simp [ht])]

/-- Equation: `handleInterstitialContinue` without an active interstitial is a
no-op (line 183). -/
theorem handleInterstitialContinue_noCurrent (s : QuizState)
    (h : s.currentInterstitial = none) : handleInterstitialContinue s = s := by
  unfold handleInterstitialContinue
  simp only [h]

/-- Equation: `handleInterstitialContinue` during an interstitial transition is
a no-op (line 183). -/
theorem handleInterstitialContinue_inFlight (s : QuizState) (k : InterKind)
    (hk : s.currentInterstitial = some k)
    (ht : s.isInterstitialTransitioning = true) : handleInterstitialContinue s = s := by
  unfold handleInterstitialContinue
  simp only [hk]
  rw [if_pos ht]

/-- Equation: `handleInterstitialContinue` enters the bound forward question
and pushes history (lines 185-209). -/
theorem handleInterstitialContinue_go (s : QuizState) (k : InterKind)
    (hk : s.currentInterstitial = some k)
    (ht : s.isInterstitialTransitioning = false) :
    handleInterstitialContinue s =
      { s with stage := QuizStage.questions
             , currentQuestionId := some (interstitialContinueTarget k)
             , questionHistory := s.questionHistory ++ [interstitialContinueTarget k]
             , currentInterstitial := none
             , isInterstitialTransitioning := false } := by
  unfold handleInterstitialContinue
  simp only [hk]
  rw [if_neg (show ¬s.isInterstitialTransitioning = true by simp [ht])]

/-- Equation: `handlePrevious` with at most one history entry is a no-op
(lines 242-244). -/
theorem handlePrevious_noHistory (s : QuizState)
    (h : s.questionHistory.length ≤ 1) : handlePrevious s = s := by
  unfold handlePrevious
  rw [if_pos h]

/-- Equation: `handlePrevious` with an active interstitial delegates to
`handleInterstitialBack` (lines 247-250). -/
theorem handlePrevious_interstitial (s : QuizState) (k : InterKind)
    (hlen : ¬s.questionHistory.length ≤ 1)
    (hk : s.currentInterstitial = some k) :
    handlePrevious s = handleInterstitialBack s := by
  unfold handlePrevious
  rw [if_neg hlen]
  simp only [hk]

/-- Equation: `handlePrevious` pops history and returns to its new last entry
(lines 253-263). -/
theorem handlePrevious_pop (s : QuizState)
    (hlen : ¬s.questionHistory.length ≤ 1)
    (hk : s.currentInterstitial = none) :
    handlePrevious s =
      { s with currentQuestionId := s.questionHistory.dropLast.getLast?
             , questionHistory := s.questionHistory.dropLast
             , isTransitioning := false } := by
  unfold handlePrevious
  rw [if_neg hlen]
  simp only [hk]

/-- Leaving an interstitial backwards preserves the invariant. -/
theorem quizInv_handleInterstitialBack (config : QuizConfig) (s : QuizState)
    (h : QuizInv config s) : QuizInv config (handleInterstitialBack s) := by
  obtain ⟨h1, h2, h3⟩ := h
  cases hk : s.currentInterstitial with
  | none =>
    rw [handleInterstitialBack_noCurrent s hk]
    exact ⟨h1, h2, h3⟩
  | some k =>
    cases ht : s.isInterstitialTransitioning with
    | true =>
      rw [handleInterstitialBack_inFlight s k hk ht]
      exact ⟨h1, h2, h3⟩
    | false =>
      rw [handleInterstitialBack_go s k hk ht]
      obtain ⟨hcur, hnext⟩ := h3 k hk
      refine ⟨h1, ?_, ?_⟩
      · intro q hq
        obtain rfl := Option.some.inj hq
        exact h2 _ hcur
      · intro k' hk'
        exact Option.noConfusion hk'

/-- Leaving an interstitial forwards preserves the invariant. -/
theorem quizInv_handleInterstitialContinue (config : QuizConfig) (s : QuizState)
    (h : QuizInv config s) : QuizInv config (handleInterstitialContinue s) := by
  obtain ⟨h1, h2, h3⟩ := h
  cases hk : s.currentInterstitial with
  | none =>
    rw [handleInterstitialContinue_noCurrent s hk]
    exact ⟨h1, h2, h3⟩
  | some k =>
    cases ht : s.isInterstitialTransitioning with
    | true =>
      rw [handleInterstitialContinue_inFlight s k hk ht]
      exact ⟨h1, h2, h3⟩
    | false =>
      rw [handleInterstitialContinue_go s k hk ht]
      obtain ⟨hcur, hnext⟩ := h3 k hk
      refine ⟨?_, ?_, ?_⟩
      · show List.Chain' (fun x y => x ≠ y)
          (s.questionHistory ++ [interstitialContinueTarget k])
        rw [List.chain'_append]
        refine ⟨h1, List.chain'_singleton _, ?_⟩
        intro x hx y hy
        rw [h2 _ hcur, Option.mem_def] at hx
        obtain rfl := Option.some.inj hx
        rw [Option.mem_def] at hy
        obtain rfl := Option.some.inj hy
        exact interstitialTargets_ne k
      · intro q hq
        obtain rfl := Option.some.inj hq
        show (s.questionHistory ++ [interstitialContinueTarget k]).getLast? =
          some (interstitialContinueTarget k)
        rw [List.getLast?_append_cons]
        rfl
      · intro k' hk'
        exact Option.noConfusion hk'

/-- Back navigation preserves the invariant. -/
theorem quizInv_handlePrevious (config : QuizConfig) (s : QuizState)
    (h : QuizInv config s) : QuizInv config (handlePrevious s) := by
  by_cases hlen : s.questionHistory.length ≤ 1
  · rw [handlePrevious_noHistory s hlen]
    exact h
  · cases hk : s.currentInterstitial with
    | some k =>
      rw [handlePrevious_interstitial s k hlen hk]
      exact quizInv_handleInterstitialBack config s h
    | none =>
      rw [handlePrevious_pop s hlen hk]
      obtain ⟨h1, h2, h3⟩ := h
      refine ⟨h1.init, ?_, ?_⟩
      · intro q hq
        exact hq
      · intro k' hk'
        have hk'' : s.currentInterstitial = some k' := hk'
        rw [hk] at hk''
        exact Option.noConfusion hk''

/-- Forward navigation preserves the invariant. -/
theorem quizInv_handleNext (config : QuizConfig)
    (hnd : (config.questions.map Question.id).Nodup) (s : QuizState)
    (h : QuizInv config s) : QuizInv config (handleNext config s) := by
  obtain ⟨h1, h2, h3⟩ := h
  cases hcur : s.currentQuestionId with
  | none =>
    rw [handleNext_noCurrent config s hcur]
    exact ⟨h1, h2, h3⟩
  | some cur =>
    cases hnext : getNextQuestionId cur s.answers config.questions with
    | none =>
      rw [handleNext_end config s cur hcur hnext]
      refine ⟨h1, ?_, ?_⟩
      · intro q hq
        exact Option.noConfusion hq
      · intro k hk
        have hk0 : s.currentInterstitial = some k := hk
        obtain ⟨hcur2, hnext2⟩ := h3 k hk0
        rw [hcur] at hcur2
        have hceq : cur = interstitialBackTarget k := Option.some.inj hcur2
        unfold getNextQuestionId at hnext
        rw [hceq, hnext2] at hnext
        exact Option.noConfusion hnext
    | some nextQuestionId =>
      cases hssi : shouldShowInterstitial cur nextQuestionId with
      | some interstitialType =>
        rw [handleNext_interstitial config s cur nextQuestionId interstitialType hcur hnext hssi]
        obtain ⟨hf, ht⟩ := shouldShowInterstitial_inv hssi
        refine ⟨h1, ?_, ?_⟩
        · intro q hq
          have hq0 : s.currentQuestionId = some q := hq
          exact h2 q hq0
        · intro k hk
          have hk0 : some interstitialType = some k := hk
          obtain rfl := Option.some.inj hk0
          refine ⟨?_, ?_⟩
          · show s.currentQuestionId = some (interstitialBackTarget interstitialType)
            rw [hcur, hf]
          · show nextAfter config.questions (interstitialBackTarget interstitialType) =
              some (interstitialContinueTarget interstitialType)
            rw [← hf, ← ht]
            exact hnext
      | none =>
        rw [handleNext_advance config s cur nextQuestionId hcur hnext hssi]
        refine ⟨?_, ?_, ?_⟩
        · show List.Chain' (fun x y => x ≠ y) (s.questionHistory ++ [nextQuestionId])
          rw [List.chain'_append]
          refine ⟨h1, List.chain'_singleton _, ?_⟩
          intro x hx y hy
          rw [h2 cur hcur, Option.mem_def] at hx
          obtain rfl := Option.some.inj hx
          rw [Option.mem_def] at hy
          obtain rfl := Option.some.inj hy
          exact fun he => nextAfter_ne config.questions hnd cur nextQuestionId hnext he.symm
        · intro q hq
          obtain rfl := Option.some.inj hq
          show (s.questionHistory ++ [nextQuestionId]).getLast? = some nextQuestionId
          rw [List.getLast?_append_cons]
          rfl
        · intro k hk
          have hk0 : s.currentInterstitial = some k := hk
          obtain ⟨hcur2, hnext2⟩ := h3 k hk0
          rw [hcur] at hcur2
          have hceq : cur = interstitialBackTarget k := Option.some.inj hcur2
          unfold getNextQuestionId at hnext
          rw [hceq, hnext2] at hnext
          obtain rfl := Option.some.inj hnext
          rw [hceq, shouldShowInterstitial_self k] at hssi
          exact Option.noConfusion hssi

/-- Every intent preserves the invariant. -/
theorem quizInv_applyOp (config : QuizConfig) (env : RedirectEnv)
    (hnd : (config.questions.map Question.id).Nodup) (s : QuizState) (op : QuizOp)
    (h : QuizInv config s) : QuizInv config (applyOp config env s op) := by
  cases op with
  | next => exact quizInv_handleNext config hnd s h
  | previous => exact quizInv_handlePrevious config s h
  | interstitialContinue => exact quizInv_handleInterstitialContinue config s h
  | answer a => exact quizInv_handleAnswer config s a h
  | check => exact quizInv_completionCheck config env s h

/-- Every intent sequence preserves the invariant. -/
theorem quizInv_runOps (config : QuizConfig) (env : RedirectEnv)
    (hnd : (config.questions.map Question.id).Nodup) :
    ∀ (ops : List QuizOp) (s : QuizState), QuizInv config s →
      QuizInv config (runOps config env ops s) := by
  intro ops
  induction ops with
  | nil =>
    intro s h
    exact h
  | cons op rest ih =>
    intro s h
    exact ih (applyOp config env s op) (quizInv_applyOp config env hnd s op h)

/-- Concrete six-question catalog matching the hardcoded bindings, used as the
input of witnesses. -/
def demoConfig : QuizConfig :=
  { questions :=
      [ ⟨"q1", "Prompt 1", [⟨"a1", "Label 1"⟩]⟩
      , ⟨"q2", "Prompt 2", [⟨"a2", "Label 2"⟩]⟩
      , ⟨"q3", "Prompt 3", [⟨"a3", "Label 3"⟩]⟩
      , ⟨"q4", "Prompt 4", [⟨"a4", "Label 4"⟩]⟩
      , ⟨"q5", "Prompt 5", [⟨"a5", "Label 5"⟩]⟩
      , ⟨"q6", "Prompt 6", [⟨"a6", "Label 6"⟩]⟩ ]
  , webhookUrl := some "https://hook.example/complete" }

/-- Concrete environment: embedded in a parent frame, postMessage succeeds. -/
def demoEnv : RedirectEnv := { isTopLevel := false, postMessageThrows := false }

/-- Concrete empty catalog. -/
def emptyConfig : QuizConfig := { questions := [], webhookUrl := none }

/-- Concrete state whose completion latch is already set. -/
def demoFiredState : QuizState :=
  { stage := QuizStage.redirecting
  , currentQuestionId := none
  , questionHistory := ["q1"]
  , isTransitioning := false
  , isInterstitialTransitioning := false
  , currentInterstitial := none
  , answers := [⟨"q1", "a1"⟩]
  , hasSentCompletionData := true
  , effects := [ExtCall.webhook, ExtCall.postMessage] }

/-- Concrete state satisfying the completion firing condition. -/
def demoReadyState : QuizState :=
  { stage := QuizStage.questions
  , currentQuestionId := none
  , questionHistory := ["q1"]
  , isTransitioning := false
  , isInterstitialTransitioning := false
  , currentInterstitial := none
  , answers := [⟨"q1", "a1"⟩]
  , hasSentCompletionData := false
  , effects := [] }

/-- Forward navigation never touches the effects log or the latch. -/
theorem handleNext_effects_eq (config : QuizConfig) (s : QuizState) :
    (handleNext config s).effects = s.effects ∧
    (handleNext config s).hasSentCompletionData = s.hasSentCompletionData := by
  unfold handleNext
  split
  · exact ⟨rfl, rfl⟩
  · split
    · split
      · exact ⟨rfl, rfl⟩
      · exact ⟨rfl, rfl⟩
    · exact ⟨rfl, rfl⟩

/-- Interstitial back never touches the effects log or the latch. -/
theorem handleInterstitialBack_effects_eq (s : QuizState) :
    (handleInterstitialBack s).effects = s.effects ∧
    (handleInterstitialBack s).hasSentCompletionData = s.hasSentCompletionData := by
  unfold handleInterstitialBack
  split
  · exact ⟨rfl, rfl⟩
  · split
    · exact ⟨rfl, rfl⟩
    · exact ⟨rfl, rfl⟩

/-- Interstitial continue never touches the effects log or the latch. -/
theorem handleInterstitialContinue_effects_eq (s : QuizState) :
    (handleInterstitialContinue s).effects = s.effects ∧
    (handleInterstitialContinue s).hasSentCompletionData = s.hasSentCompletionData := by
  unfold handleInterstitialContinue
  split
  · exact ⟨rfl, rfl⟩
  · split
    · exact ⟨rfl, rfl⟩
    · exact ⟨rfl, rfl⟩

/-- Back navigation never touches the effects log or the latch. -/
theorem handlePrevious_effects_eq (s : QuizState) :
    (handlePrevious s).effects = s.effects ∧
    (handlePrevious s).hasSentCompletionData = s.hasSentCompletionData := by
  unfold handlePrevious
  split
  · exact ⟨rfl, rfl⟩
  · split
    · exact handleInterstitialBack_effects_eq s
    · exact ⟨rfl, rfl⟩

/-- Answer recording never touches the effects log or the latch. -/
theorem handleAnswer_effects_eq (s : QuizState) (a : QuizAnswer) :
    (handleAnswer s a).effects = s.effects ∧
    (handleAnswer s a).hasSentCompletionData = s.hasSentCompletionData := by
  unfold handleAnswer
  split
  · exact ⟨rfl, rfl⟩
  · exact ⟨rfl, rfl⟩

/-- A set latch blocks the completion effect entirely. -/
theorem completionCheck_latched (config : QuizConfig) (env : RedirectEnv) (s : QuizState)
    (h : s.hasSentCompletionData = true) : completionCheck config env s = s := by
  have hnc : ¬completionShouldFire s := by
    intro hc
    obtain ⟨-, -, -, h4⟩ := hc
    rw [h] at h4
    exact Bool.noConfusion h4
  unfold completionCheck
  rw [if_neg hnc]

/-- Once the latch is set, no single intent dispatches anything or resets it. -/
theorem applyOp_latched (config : QuizConfig) (env : RedirectEnv) (s : QuizState)
    (op : QuizOp) (h : s.hasSentCompletionData = true) :
    (applyOp config env s op).effects = s.effects ∧
    (applyOp config env s op).hasSentCompletionData = true := by
  cases op with
  | next =>
    obtain ⟨e, hs⟩ := handleNext_effects_eq config s
    exact ⟨e, by show (handleNext config s).hasSentCompletionData = true; rw [hs, h]⟩
  | previous =>
    obtain ⟨e, hs⟩ := handlePrevious_effects_eq s
    exact ⟨e, by show (handlePrevious s).hasSentCompletionData = true; rw [hs, h]⟩
  | interstitialContinue =>
    obtain ⟨e, hs⟩ := handleInterstitialContinue_effects_eq s
    exact ⟨e, by show (handleInterstitialContinue s).hasSentCompletionData = true; rw [hs, h]⟩
  | answer a =>
    obtain ⟨e, hs⟩ := handleAnswer_effects_eq s a
    exact ⟨e, by show (handleAnswer s a).hasSentCompletionData = true; rw [hs, h]⟩
  | check =>
    rw [show applyOp config env s QuizOp.check = completionCheck config env s from rfl,
      completionCheck_latched config env s h]
    exact ⟨rfl, h⟩

/-- Once the latch is set, no intent sequence dispatches anything or resets it. -/
theorem runOps_latched (config : QuizConfig) (env : RedirectEnv) :
    ∀ (ops : List QuizOp) (s : QuizState), s.hasSentCompletionData = true →
      (runOps config env ops s).effects = s.effects ∧
      (runOps config env ops s).hasSentCompletionData = true := by
  intro ops
  induction ops with
  | nil =>
    intro s h
    exact ⟨rfl, h⟩
  | cons op rest ih =>
    intro s h
    obtain ⟨e1, h1⟩ := applyOp_latched config env s op h
    obtain ⟨e2, h2⟩ := ih (applyOp config env s op) h1
    exact ⟨e2.trans e1, h2⟩

/-- C1: the Completion Trigger fires exactly when stage is `questions` with no
current question, the ledger is non-empty and the latch is unset; it sets the
latch (and leaves the question stage) before dispatching any external call;
and once the latch is set, no sequence of further intents or re-checks ever
dispatches another notification or redirect. -/
theorem completion_trigger_at_most_once (config : QuizConfig) (env : RedirectEnv) :
    (∀ s : QuizState, ¬completionShouldFire s → completionCheck config env s = s) ∧
    (∀ s : QuizState, completionShouldFire s →
      (completionLatch s).hasSentCompletionData = true ∧
      completionCheck config env s = completionDispatch config env (completionLatch s) ∧
      (completionCheck config env s).effects =
        s.effects ++ completionExternalCalls config env ∧
      (completionCheck config env s).hasSentCompletionData = true) ∧
    (∀ (s : QuizState) (ops : List QuizOp), s.hasSentCompletionData = true →
      (runOps config env ops s).effects = s.effects ∧
      (runOps config env ops s).hasSentCompletionData = true) := by
  refine ⟨?_, ?_, ?_⟩
  · intro s h
    unfold completionCheck
    rw [if_neg h]
  · intro s h
    refine ⟨rfl, ?_, ?_, ?_⟩
    · unfold completionCheck
      rw [if_pos h]
    · unfold completionCheck
      rw [if_pos h]
      rfl
    · unfold completionCheck
      rw [if_pos h]
      rfl
  · intro s ops h
    exact runOps_latched config env ops s h

/-- Witness for C1 at concrete inputs: the firing condition holds in
`demoReadyState`, one check sets the latch, and from the latched
`demoFiredState` two further re-checks dispatch nothing. -/
theorem completion_trigger_at_most_once_witness :
    completionShouldFire demoReadyState ∧
    (completionCheck demoConfig demoEnv demoReadyState).hasSentCompletionData = true ∧
    (runOps demoConfig demoEnv [QuizOp.check, QuizOp.check] demoFiredState).effects =
      demoFiredState.effects :=
  ⟨by decide,
   ((completion_trigger_at_most_once demoConfig demoEnv).2.1 demoReadyState (by decide)).2.2.2,
   ((completion_trigger_at_most_once demoConfig demoEnv).2.2 demoFiredState
     [QuizOp.check, QuizOp.check] rfl).1⟩

/-- Concrete two-question catalog whose transition (q2,q3) has no interstitial
binding. -/
def pairConfig : QuizConfig :=
  { questions :=
      [ ⟨"q2", "Prompt 2", [⟨"a2", "Label 2"⟩]⟩
      , ⟨"q3", "Prompt 3", [⟨"a3", "Label 3"⟩]⟩ ]
  , webhookUrl := none }

/-- C2 counterexample: from `pairConfig`, the first `advance()` leaves a
transition in flight (`isTransitioning = true`), yet a second `advance()`
issued in that window is not dropped: it changes the state, and after both
scheduled callbacks fire there are two navigation changes, leaving a
duplicate history push. -/
theorem rapid_advance_not_dropped :
    (handleNextSync pairConfig ⟨initialState pairConfig, []⟩).base.isTransitioning = true ∧
    handleNextSync pairConfig (handleNextSync pairConfig ⟨initialState pairConfig, []⟩) ≠
      handleNextSync pairConfig ⟨initialState pairConfig, []⟩ ∧
    (fireAll (handleNextSync pairConfig (handleNextSync pairConfig
      ⟨initialState pairConfig, []⟩))).questionHistory = ["q2", "q3", "q3"] := by
  decide

/-- C2 amended: the in-flight gate exists only for interstitial navigation
intents: while `isInterstitialTransitioning` is true, `exitInterstitialForward`
and interstitial back are dropped with no state change; question-stage
`advance()` and `retreat()` read no transition flag, so two rapid `advance()`
calls schedule two navigation changes (a duplicate history push). -/
theorem transition_gate_interstitial_only :
    (∀ st : AsyncQuizState, st.base.isInterstitialTransitioning = true →
      handleInterstitialContinueSync st = st ∧ handleInterstitialBackSync st = st) ∧
    (fireAll (handleNextSync pairConfig (handleNextSync pairConfig
      ⟨initialState pairConfig, []⟩))).questionHistory = ["q2", "q3", "q3"] := by
  constructor
  · intro st h
    constructor
    · unfold handleInterstitialContinueSync
      split
      · rfl
      · rw [if_pos h]
    · unfold handleInterstitialBackSync
      split
      · rfl
      · rw [if_pos h]
  · decide

/-- Concrete state with an interstitial transition in flight. -/
def demoInFlight : AsyncQuizState :=
  { base :=
      { stage := QuizStage.interstitialA
      , currentQuestionId := some "q1"
      , questionHistory := ["q1"]
      , isTransitioning := false
      , isInterstitialTransitioning := true
      , currentInterstitial := some InterKind.a
      , answers := []
      , hasSentCompletionData := false
      , effects := [] }
  , pending := [PendingUpdate.interstitialForward "q2"] }

/-- Witness for the C2 amended theorem at a concrete in-flight state. -/
theorem transition_gate_interstitial_only_witness :
    handleInterstitialContinueSync demoInFlight = demoInFlight ∧
    handleInterstitialBackSync demoInFlight = demoInFlight :=
  transition_gate_interstitial_only.1 demoInFlight rfl

/-- C3: over every intent sequence applied synchronously (each transition
completing before the next intent, i.e. respecting the in-flight gate) from
the initial state of a non-empty catalog with distinct ids, history never has
two equal adjacent entries, and at the question stage with an active question
the last history entry is the current question. -/
theorem history_no_adjacent_dup_and_tracks_current (config : QuizConfig)
    (env : RedirectEnv) (hnd : (config.questions.map Question.id).Nodup)
    (hne : config.questions ≠ []) (ops : List QuizOp) :
    List.Chain' (fun x y => x ≠ y)
      (runOps config env ops (initialState config)).questionHistory ∧
    ((runOps config env ops (initialState config)).stage = QuizStage.questions →
      ∀ q, (runOps config env ops (initialState config)).currentQuestionId = some q →
        (runOps config env ops (initialState config)).questionHistory.getLast? = some q) := by
  obtain ⟨h1, h2, h3⟩ :=
    quizInv_runOps config env hnd ops (initialState config) (quizInv_initialState config)
  exact ⟨h1, fun _ q hq => h2 q hq⟩

/-- Concrete intent sequence crossing an interstitial, answering, advancing
and retreating. -/
def demoOps : List QuizOp :=
  [ QuizOp.answer ⟨"q1", "a1"⟩, QuizOp.next, QuizOp.interstitialContinue
  , QuizOp.answer ⟨"q2", "a2"⟩, QuizOp.next, QuizOp.previous, QuizOp.next
  , QuizOp.next, QuizOp.check ]

/-- Witness for C3 on the demo catalog and a concrete intent sequence. -/
theorem history_no_adjacent_dup_and_tracks_current_witness :
    List.Chain' (fun x y => x ≠ y)
      (runOps demoConfig demoEnv demoOps (initialState demoConfig)).questionHistory ∧
    ((runOps demoConfig demoEnv demoOps (initialState demoConfig)).stage =
        QuizStage.questions →
      ∀ q, (runOps demoConfig demoEnv demoOps
          (initialState demoConfig)).currentQuestionId = some q →
        (runOps demoConfig demoEnv demoOps
          (initialState demoConfig)).questionHistory.getLast? = some q) :=
  history_no_adjacent_dup_and_tracks_current demoConfig demoEnv (by decide) (by decide)
    demoOps

/-- C4 counterexample: entering Interstitial A from q1 at session start
(history `["q1"]`) and then calling `retreat()` does not return to the
question stage and does not clear the active interstitial, because
`handlePrevious` returns early whenever history has at most one entry
(line 242) before ever reaching the interstitial branch. -/
theorem retreat_from_first_interstitial_blocked :
    (handleNext demoConfig (initialState demoConfig)).currentInterstitial =
      some InterKind.a ∧
    (handlePrevious (handleNext demoConfig (initialState demoConfig))).stage ≠
      QuizStage.questions ∧
    (handlePrevious (handleNext demoConfig (initialState demoConfig))).currentInterstitial =
      some InterKind.a := by
  decide

/-- C4 amended: for every question X with a forward interstitial binding
(X, toId, K), after entering Interstitial(K) via `advance()` from X — so the
current question is still X, the reverse target of K — and provided history
holds more than one entry (`retreat()` is globally gated on
`history.length > 1` and is a silent no-op otherwise), calling `retreat()`
returns to stage Questions with the current question X, clears the active
interstitial and leaves history unchanged. -/
theorem retreat_from_interstitial (s : QuizState) (k : InterKind)
    (hk : s.currentInterstitial = some k)
    (hcur : s.currentQuestionId = some (interstitialBackTarget k))
    (ht : s.isInterstitialTransitioning = false)
    (hlen : 1 < s.questionHistory.length) :
    (handlePrevious s).stage = QuizStage.questions ∧
    (handlePrevious s).currentQuestionId = s.currentQuestionId ∧
    (handlePrevious s).currentInterstitial = none ∧
    (handlePrevious s).questionHistory = s.questionHistory := by
  have hlen' : ¬s.questionHistory.length ≤ 1 := by omega
  rw [handlePrevious_interstitial s k hlen' hk, handleInterstitialBack_go s k hk ht]
  exact ⟨rfl, by rw [hcur], rfl, rfl⟩

/-- Concrete state on Interstitial B, reached by an actual run:
answer q1, advance into Interstitial A, continue to q2, advance to q3,
advance into Interstitial B (history `["q1", "q2", "q3"]`). -/
def demoOnInterstitialB : QuizState :=
  runOps demoConfig demoEnv
    [QuizOp.next, QuizOp.interstitialContinue, QuizOp.next, QuizOp.next]
    (initialState demoConfig)

/-- Witness for the C4 amended theorem on Interstitial B. -/
theorem retreat_from_interstitial_witness :
    (handlePrevious demoOnInterstitialB).stage = QuizStage.questions ∧
    (handlePrevious demoOnInterstitialB).currentQuestionId =
      demoOnInterstitialB.currentQuestionId ∧
    (handlePrevious demoOnInterstitialB).currentInterstitial = none ∧
    (handlePrevious demoOnInterstitialB).questionHistory =
      demoOnInterstitialB.questionHistory :=
  retreat_from_interstitial demoOnInterstitialB InterKind.b (by decide) (by decide)
    (by decide) (by decide)

/-- C5: with an active interstitial of kind K and no interstitial transition
in flight (the guards of lines 183), `exitInterstitialForward()` moves to
stage Questions, sets the current question to exactly the bound forward
target of K, appends exactly that one entry to history, and clears the
active interstitial. -/
theorem exit_interstitial_forward (s : QuizState) (k : InterKind)
    (hstage : s.stage = stageOfKind k)
    (hk : s.currentInterstitial = some k)
    (ht : s.isInterstitialTransitioning = false) :
    (handleInterstitialContinue s).stage = QuizStage.questions ∧
    (handleInterstitialContinue s).currentQuestionId =
      some (interstitialContinueTarget k) ∧
    (handleInterstitialContinue s).questionHistory =
      s.questionHistory ++ [interstitialContinueTarget k] ∧
    (handleInterstitialContinue s).questionHistory.length =
      s.questionHistory.length + 1 ∧
    (handleInterstitialContinue s).currentInterstitial = none := by
  rw [handleInterstitialContinue_go s k hk ht]
  refine ⟨rfl, rfl, rfl, ?_, rfl⟩
  show (s.questionHistory ++ [interstitialContinueTarget k]).length =
    s.questionHistory.length + 1
  rw [List.length_append]
  rfl

/-- Concrete state on Interstitial A, reached by advancing from q1. -/
def demoOnInterstitialA : QuizState :=
  runOps demoConfig demoEnv [QuizOp.next] (initialState demoConfig)

/-- Witness for C5 on Interstitial A. -/
theorem exit_interstitial_forward_witness :
    (handleInterstitialContinue demoOnInterstitialA).stage = QuizStage.questions ∧
    (handleInterstitialContinue demoOnInterstitialA).currentQuestionId =
      some (interstitialContinueTarget InterKind.a) ∧
    (handleInterstitialContinue demoOnInterstitialA).questionHistory =
      demoOnInterstitialA.questionHistory ++ [interstitialContinueTarget InterKind.a] ∧
    (handleInterstitialContinue demoOnInterstitialA).questionHistory.length =
      demoOnInterstitialA.questionHistory.length + 1 ∧
    (handleInterstitialContinue demoOnInterstitialA).currentInterstitial = none :=
  exit_interstitial_forward demoOnInterstitialA InterKind.a (by decide) (by decide)
    (by decide)

/-- Equation: `handleAnswer` with an existing entry replaces it in place
(lines 108-111). -/
theorem handleAnswer_replace (s : QuizState) (a : QuizAnswer) (i : Nat)
    (h : findIndex (fun x => x.questionId = a.questionId) s.answers = some i) :
    handleAnswer s a = { s with answers := s.answers.set i a } := by
  unfold handleAnswer
  simp only [h]

/-- Equation: `handleAnswer` with no existing entry appends (lines 112-117). -/
theorem handleAnswer_append (s : QuizState) (a : QuizAnswer)
    (h : findIndex (fun x => x.questionId = a.questionId) s.answers = none) :
    handleAnswer s a = { s with answers := s.answers ++ [a] } := by
  unfold handleAnswer
  simp only [h]

/-- C6: `recordAnswer` is total (the embedding is a plain function) and, when
the ledger already holds an entry for the same question at position i, the
new answer replaces that position in place — ledger length, the questionId
sequence (hence order) and every other position are unchanged; with no such
entry, the answer is appended at the end. -/
theorem record_answer_spec (s : QuizState) (a : QuizAnswer) :
    (∀ i, findIndex (fun x => x.questionId = a.questionId) s.answers = some i →
      (handleAnswer s a).answers = s.answers.set i a ∧
      (handleAnswer s a).answers.length = s.answers.length ∧
      (handleAnswer s a).answers.map (fun x => x.questionId) =
        s.answers.map (fun x => x.questionId) ∧
      ∀ j, j ≠ i → (handleAnswer s a).answers.get? j = s.answers.get? j) ∧
    (findIndex (fun x => x.questionId = a.questionId) s.answers = none →
      (handleAnswer s a).answers = s.answers ++ [a]) := by
  constructor
  · intro i hi
    obtain ⟨hlt, hp⟩ := findIndex_some hi
    rw [handleAnswer_replace s a i hi]
    refine ⟨rfl, ?_, ?_, ?_⟩
    · show (s.answers.set i a).length = s.answers.length
      rw [List.length_set]
    · show (s.answers.set i a).map (fun x => x.questionId) =
        s.answers.map (fun x => x.questionId)
      exact map_set_eq s.answers i a hlt (of_decide_eq_true hp).symm
    · intro j hj
      show (s.answers.set i a).get? j = s.answers.get? j
      exact set_get?_ne s.answers i j a (fun he => hj he.symm)
  · intro hn
    rw [handleAnswer_append s a hn]

/-- Concrete state with two recorded answers. -/
def demoAnsweredState : QuizState :=
  { stage := QuizStage.questions
  , currentQuestionId := some "q2"
  , questionHistory := ["q1", "q2"]
  , isTransitioning := false
  , isInterstitialTransitioning := false
  , currentInterstitial := none
  , answers := [⟨"q1", "a1"⟩, ⟨"q2", "a2"⟩]
  , hasSentCompletionData := false
  , effects := [] }

/-- Witness for C6: re-answering q1 replaces position 0 and keeps length; a
fresh answer for q3 is appended. -/
theorem record_answer_spec_witness :
    (handleAnswer demoAnsweredState ⟨"q1", "z1"⟩).answers =
      demoAnsweredState.answers.set 0 ⟨"q1", "z1"⟩ ∧
    (handleAnswer demoAnsweredState ⟨"q1", "z1"⟩).answers.length =
      demoAnsweredState.answers.length ∧
    (handleAnswer demoAnsweredState ⟨"q3", "z3"⟩).answers =
      demoAnsweredState.answers ++ [⟨"q3", "z3"⟩] :=
  ⟨((record_answer_spec demoAnsweredState ⟨"q1", "z1"⟩).1 0 (by decide)).1,
   ((record_answer_spec demoAnsweredState ⟨"q1", "z1"⟩).1 0 (by decide)).2.1,
   (record_answer_spec demoAnsweredState ⟨"q3", "z3"⟩).2 (by decide)⟩

/-- Concrete catalog with two distinct questions sharing one prompt text. -/
def clashConfig : QuizConfig :=
  { questions :=
      [ ⟨"q1", "Shared prompt", [⟨"a", "Label A"⟩]⟩
      , ⟨"q2", "Shared prompt", [⟨"b", "Label B"⟩]⟩ ]
  , webhookUrl := none }

/-- Concrete ledger answering both questions of `clashConfig`. -/
def clashAnswers : List QuizAnswer := [⟨"q1", "a"⟩, ⟨"q2", "b"⟩]

/-- C7 counterexample: the summary is keyed by prompt text, so a ledger with
two distinct questionIds whose questions share a prompt yields one entry, not
one entry per distinct questionId. -/
theorem answer_summary_collapses_equal_prompts :
    (humanReadableMap clashConfig clashAnswers).length = 1 ∧
    (clashAnswers.map (fun a => a.questionId)).dedup.length = 2 := by
  decide

/-- Folding the summary over answers whose prompts are fresh and pairwise
distinct appends one pair per answer. -/
theorem humanReadableMap_fold (config : QuizConfig) :
    ∀ (answers : List QuizAnswer) (m : List (String × String)),
      (∀ a ∈ answers, ∀ p ∈ m, p.1 ≠ getQuestionText a.questionId config) →
      (answers.map (fun a => getQuestionText a.questionId config)).Nodup →
      answers.foldl
        (fun acc ans =>
          recordSet acc (getQuestionText ans.questionId config)
            (getOptionText ans.questionId ans.value config)) m =
      m ++ answers.map (fun a =>
        (getQuestionText a.questionId config,
         getOptionText a.questionId a.value config)) := by
  intro answers
  induction answers with
  | nil =>
    intro m _ _
    simp
  | cons a rest ih =>
    intro m hdis hnd
    have hkey : findIndex (fun p => p.1 = getQuestionText a.questionId config) m = none := by
      apply findIndex_eq_none
      intro p hp
      exact decide_eq_false (hdis a (List.mem_cons_self a rest) p hp)
    have hstep : recordSet m (getQuestionText a.questionId config)
        (getOptionText a.questionId a.value config) =
        m ++ [(getQuestionText a.questionId config,
               getOptionText a.questionId a.value config)] := by
      unfold recordSet
      simp only [hkey]
    rw [List.map_cons, List.nodup_cons] at hnd
    rw [List.foldl_cons, hstep, ih]
    · simp
    · intro a' ha' p hp
      rcases List.mem_append.mp hp with hpm | hpk
      · exact hdis a' (List.mem_cons_of_mem a ha') p hpm
      · obtain rfl := List.mem_singleton.mp hpk
        intro he
        have he' : getQuestionText a.questionId config =
            getQuestionText a'.questionId config := he
        apply hnd.1
        rw [he']
        exact List.mem_map_of_mem _ ha'
    · exact hnd.2

/-- C7 amended: when the answered questions have pairwise-distinct prompt
texts (in particular distinct questionIds — the ledger invariant), the
summary has exactly one entry per ledger entry, mapping each answered
question's prompt text to the label of its recorded (hence last-recorded)
option value; when two answered questions share a prompt text, the later
entry overwrites the earlier one under that single key. -/
theorem answer_summary_spec (config : QuizConfig) (answers : List QuizAnswer)
    (hnd : (answers.map (fun a => getQuestionText a.questionId config)).Nodup) :
    humanReadableMap config answers =
      answers.map (fun a =>
        (getQuestionText a.questionId config,
         getOptionText a.questionId a.value config)) ∧
    (humanReadableMap config answers).length = answers.length := by
  have hfold := humanReadableMap_fold config answers []
    (by intro a _ p hp; exact absurd hp (List.not_mem_nil p)) hnd
  constructor
  · unfold humanReadableMap
    rw [hfold]
    simp
  · unfold humanReadableMap
    rw [hfold]
    simp

/-- Concrete ledger answering q1 and q2 of the demo catalog. -/
def demoTwoAnswers : List QuizAnswer := [⟨"q1", "a1"⟩, ⟨"q2", "a2"⟩]

/-- Witness for the C7 amended theorem on the demo catalog. -/
theorem answer_summary_spec_witness :
    humanReadableMap demoConfig demoTwoAnswers =
      demoTwoAnswers.map (fun a =>
        (getQuestionText a.questionId demoConfig,
         getOptionText a.questionId a.value demoConfig)) ∧
    (humanReadableMap demoConfig demoTwoAnswers).length = demoTwoAnswers.length :=
  answer_summary_spec demoConfig demoTwoAnswers (by decide)

/-- The webhook portion of the completion calls never contains redirect
events. -/
theorem webhookCalls_no_redirect (config : QuizConfig) :
    ExtCall.postMessage ∉ webhookCalls config ∧
    ExtCall.locationAssign ∉ webhookCalls config := by
  unfold webhookCalls
  split
  · split
    · exact ⟨List.not_mem_nil _, List.not_mem_nil _⟩
    · constructor
      · intro h
        exact absurd (List.mem_singleton.mp h) (by decide)
      · intro h
        exact absurd (List.mem_singleton.mp h) (by decide)
  · exact ⟨List.not_mem_nil _, List.not_mem_nil _⟩

/-- C8: on completion, when `postMessage` does not throw the cross-context
redirect message is dispatched; if additionally the page is top-level
(`window.parent === window`), direct navigation also runs as fallback; when
`postMessage` throws, no message is dispatched and the `catch` block runs
direct navigation; and in every environment at least one redirect — message
or direct navigation — is initiated. -/
theorem completion_redirect_always (config : QuizConfig) (env : RedirectEnv) :
    (env.postMessageThrows = false →
      ExtCall.postMessage ∈ completionExternalCalls config env) ∧
    (env.postMessageThrows = false → env.isTopLevel = true →
      ExtCall.locationAssign ∈ completionExternalCalls config env) ∧
    (env.postMessageThrows = true →
      ExtCall.postMessage ∉ completionExternalCalls config env ∧
      ExtCall.locationAssign ∈ completionExternalCalls config env) ∧
    (ExtCall.postMessage ∈ completionExternalCalls config env ∨
      ExtCall.locationAssign ∈ completionExternalCalls config env) := by
  obtain ⟨hw1, hw2⟩ := webhookCalls_no_redirect config
  refine ⟨?_, ?_, ?_, ?_⟩
  · intro hthr
    unfold completionExternalCalls redirectCalls
    rw [hthr]
    simp
  · intro hthr htop
    unfold completionExternalCalls redirectCalls
    rw [hthr, htop]
    simp
  · intro hthr
    unfold completionExternalCalls redirectCalls
    rw [hthr]
    constructor
    · intro hmem
      rcases List.mem_append.mp hmem with h | h
      · exact hw1 h
      · rw [if_pos rfl] at h
        exact absurd (List.mem_singleton.mp h) (by decide)
    · simp
  · cases hthr : env.postMessageThrows with
    | true =>
      right
      unfold completionExternalCalls redirectCalls
      rw [hthr]
      simp
    | false =>
      left
      unfold completionExternalCalls redirectCalls
      rw [hthr]
      simp

/-- Witness for C8: with a parent frame and working postMessage the message is
dispatched; with a throwing postMessage direct navigation runs. -/
theorem completion_redirect_always_witness :
    ExtCall.postMessage ∈
      completionExternalCalls demoConfig ⟨false, false⟩ ∧
    ExtCall.postMessage ∉
      completionExternalCalls demoConfig ⟨false, true⟩ ∧
    ExtCall.locationAssign ∈
      completionExternalCalls demoConfig ⟨false, true⟩ :=
  ⟨(completion_redirect_always demoConfig ⟨false, false⟩).1 rfl,
   ((completion_redirect_always demoConfig ⟨false, true⟩).2.2.1 rfl).1,
   ((completion_redirect_always demoConfig ⟨false, true⟩).2.2.1 rfl).2⟩

/-- The terminal no-current-question condition that the spec's abstract stage
`Completing` denotes: the concrete `QuizStage` union has no separate
completing value; the controller represents completion as stage `questions`
with a null current question, exactly the condition read by the completion
gate (line 44). -/
def completingReached (s : QuizState) : Prop :=
  s.stage = QuizStage.questions ∧ s.currentQuestionId = none

/-- C9: at session start a non-empty catalog puts the machine at the question
stage on `catalog[0].id` with history `[catalog[0].id]`; an empty catalog
starts directly in the terminal no-current-question (Completing) condition,
where `advance()` is already a no-op. -/
theorem initial_state_spec (config : QuizConfig) :
    (∀ q rest, config.questions = q :: rest →
      (initialState config).stage = QuizStage.questions ∧
      (initialState config).currentQuestionId = some q.id ∧
      (initialState config).questionHistory = [q.id]) ∧
    (config.questions = [] →
      completingReached (initialState config) ∧
      (initialState config).currentQuestionId = none ∧
      handleNext config (initialState config) = initialState config) := by
  constructor
  · intro q rest hq
    unfold initialState
    rw [hq]
    exact ⟨rfl, rfl, rfl⟩
  · intro hq
    have hcur : (initialState config).currentQuestionId = none := by
      unfold initialState
      rw [hq]
    exact ⟨⟨rfl, hcur⟩, hcur, handleNext_noCurrent config _ hcur⟩

/-- Witness for C9 on the demo catalog and the empty catalog. -/
theorem initial_state_spec_witness :
    ((initialState demoConfig).stage = QuizStage.questions ∧
      (initialState demoConfig).currentQuestionId = some "q1" ∧
      (initialState demoConfig).questionHistory = ["q1"]) ∧
    completingReached (initialState emptyConfig) := by
  obtain ⟨h1, -⟩ := initial_state_spec demoConfig
  obtain ⟨-, h2⟩ := initial_state_spec emptyConfig
  obtain ⟨a1, a2, a3⟩ := h1 _ _ rfl
  exact ⟨⟨a1, a2, a3⟩, (h2 rfl).1⟩

/-- C10: with a null current question the emitted question number is 1 and
progress is 0; with a current question id absent from the catalog
(`findIndex` yields -1) the question number is 0 and progress is 0. -/
theorem derived_views_spec (config : QuizConfig) :
    getCurrentQuestionNumber config none = 1 ∧
    calculateProgress config none = 0 ∧
    (∀ cur, (∀ q ∈ config.questions, q.id ≠ cur) →
      getCurrentQuestionNumber config (some cur) = 0 ∧
      calculateProgress config (some cur) = 0) := by
  refine ⟨rfl, rfl, ?_⟩
  intro cur h
  have hidx : findIndex (fun q => q.id = cur) config.questions = none :=
    findIndex_eq_none (fun q hq => decide_eq_false (h q hq))
  constructor
  · unfold getCurrentQuestionNumber
    simp only [hidx]
    decide
  · unfold calculateProgress
    simp only [hidx]
    rw [ite_self]

/-- Witness for C10 on the demo catalog with the absent id `"zz"`. -/
theorem derived_views_spec_witness :
    getCurrentQuestionNumber demoConfig none = 1 ∧
    calculateProgress demoConfig none = 0 ∧
    getCurrentQuestionNumber demoConfig (some "zz") = 0 ∧
    calculateProgress demoConfig (some "zz") = 0 := by
  obtain ⟨h1, h2, h3⟩ := derived_views_spec demoConfig
  obtain ⟨a, b⟩ := h3 "zz" (by decide)
  exact ⟨h1, h2, a, b⟩
